import Mathlib

/-!
Shallow embedding of `src/protocol.rs` from the codecrafters DNS server
(apetresc/codecrafters-dns-server-rust), together with theorems checking the
natural-language specification against it.

Modelling conventions:
* Rust byte buffers (`&[u8]`, `Vec<u8>`) are `List Nat`; every byte a Rust
  program can place in them is `< 256`.
* `u16`/`u32` struct fields are `Nat`; Rust's type system guarantees they are
  below `2 ^ 16` / `2 ^ 32`, which theorems assume as explicit hypotheses
  where it matters.
* A fallible Rust call is a `DecodeResult`: `formatError` models
  `Err(ProtocolError)` and `panicked` models a Rust panic (an out-of-bounds
  index or slice).  Functions that cannot hit either outcome simply never
  return it.
-/

/-- Outcome of one decode call: a value, `Err(ProtocolError)`, or a panic
(out-of-bounds indexing/slicing). -/
inductive DecodeResult (α : Type) where
  | ok : α → DecodeResult α
  | formatError : DecodeResult α
  | panicked : DecodeResult α
  deriving DecidableEq, Repr

/-- `u16::to_be_bytes`: the two big-endian bytes of a 16-bit value. -/
def be16 (n : Nat) : List Nat := [n / 256 % 256, n % 256]

/-- `u32::to_be_bytes`: the four big-endian bytes of a 32-bit value. -/
def be32 (n : Nat) : List Nat :=
  [n / 16777216 % 256, n / 65536 % 256, n / 256 % 256, n % 256]

/-- `u16::from_be_bytes([a, b])`. -/
def fromBe16 (a b : Nat) : Nat := a * 256 + b

/-- The `DNSHeader` struct of `protocol.rs` (all integer fields). -/
structure DNSHeader where
  id : Nat
  qr : Nat
  opcode : Nat
  aa : Nat
  tc : Nat
  rd : Nat
  ra : Nat
  z : Nat
  rcode : Nat
  qdcount : Nat
  ancount : Nat
  nscount : Nat
  arcount : Nat
  deriving DecidableEq, Repr

/-- `DNSHeader::new(id, response)`. -/
def DNSHeader.new (id : Nat) (response : Bool) : DNSHeader :=
  { id := id, qr := if response then 1 else 0, opcode := 0, aa := 0, tc := 0,
    rd := 0, ra := 0, z := 0, rcode := 0, qdcount := 0, ancount := 0,
    nscount := 0, arcount := 0 }

/-- `DNSHeader::to_bytes`.  On `u8`, Rust `x << k` keeps the low 8 bits of
the shifted value (hence the `% 256`) and `|` is bitwise or. -/
def DNSHeader.to_bytes (h : DNSHeader) : List Nat :=
  be16 h.id ++
  [Nat.lor ((h.qr <<< 7) % 256) (Nat.lor ((h.opcode <<< 3) % 256)
     (Nat.lor ((h.aa <<< 2) % 256) (Nat.lor ((h.tc <<< 1) % 256) h.rd))),
   Nat.lor ((h.ra <<< 7) % 256) (Nat.lor ((h.z <<< 4) % 256) h.rcode)] ++
  be16 h.qdcount ++ be16 h.ancount ++ be16 h.nscount ++ be16 h.arcount

/-- `DNSHeader::from_bytes`.  The Rust code rejects buffers shorter than 12
bytes and otherwise reads `bytes[0] ..= bytes[11]`; matching the first twelve
elements is that same test.  On `u8`, `x >> k` is division by `2 ^ k` and
`x & (2 ^ j - 1)` is `x % 2 ^ j`, written here in divide/modulo form. -/
def DNSHeader.from_bytes : List Nat → DecodeResult DNSHeader
  | b0 :: b1 :: b2 :: b3 :: b4 :: b5 :: b6 :: b7 :: b8 :: b9 :: b10 :: b11 :: _ =>
    .ok { id := fromBe16 b0 b1,
          qr := b2 / 128,
          opcode := b2 / 8 % 16,
          aa := b2 / 4 % 2,
          tc := b2 / 2 % 2,
          rd := b2 % 2,
          ra := b3 / 128,
          z := b3 / 16 % 8,
          rcode := b3 % 16,
          qdcount := fromBe16 b4 b5,
          ancount := fromBe16 b6 b7,
          nscount := fromBe16 b8 b9,
          arcount := fromBe16 b10 b11 }
  | _ => .formatError

/-- The UTF-8 bytes of one U+FFFD replacement character, which
`String::from_utf8_lossy` substitutes for each maximal invalid subpart. -/
def replacementBytes : List Nat := [0xEF, 0xBF, 0xBD]

/-- Is `b` a UTF-8 continuation byte (`0x80 ..= 0xBF`)? -/
def isCont (b : Nat) : Bool := 0x80 ≤ b && b ≤ 0xBF

/-- Valid range of the first continuation byte after lead byte `b`
(per the UTF-8 table used by Rust's std validation). -/
def cont1Ok (b b2 : Nat) : Bool :=
  if b = 0xE0 then 0xA0 ≤ b2 && b2 ≤ 0xBF
  else if b = 0xED then 0x80 ≤ b2 && b2 ≤ 0x9F
  else if b = 0xF0 then 0x90 ≤ b2 && b2 ≤ 0xBF
  else if b = 0xF4 then 0x80 ≤ b2 && b2 ≤ 0x8F
  else isCont b2

/-- `String::from_utf8_lossy(bytes)` at the byte level: well-formed UTF-8
sequences are copied through unchanged and each maximal invalid subpart is
replaced by U+FFFD (Unicode "substitution of maximal subparts", as in Rust's
std).  A byte sequence is valid UTF-8 exactly when this map leaves it
unchanged. -/
def utf8Lossy : List Nat → List Nat
  | [] => []
  | b :: rest =>
    if b ≤ 0x7F then b :: utf8Lossy rest
    else if 0xC2 ≤ b ∧ b ≤ 0xDF then
      match rest with
      | [] => replacementBytes
      | b2 :: rest2 =>
        if isCont b2 then b :: b2 :: utf8Lossy rest2
        else replacementBytes ++ utf8Lossy (b2 :: rest2)
    else if 0xE0 ≤ b ∧ b ≤ 0xEF then
      match rest with
      | [] => replacementBytes
      | b2 :: rest2 =>
        if cont1Ok b b2 then
          match rest2 with
          | [] => replacementBytes
          | b3 :: rest3 =>
            if isCont b3 then b :: b2 :: b3 :: utf8Lossy rest3
            else replacementBytes ++ utf8Lossy (b3 :: rest3)
        else replacementBytes ++ utf8Lossy (b2 :: rest2)
    else if 0xF0 ≤ b ∧ b ≤ 0xF4 then
      match rest with
      | [] => replacementBytes
      | b2 :: rest2 =>
        if cont1Ok b b2 then
          match rest2 with
          | [] => replacementBytes
          | b3 :: rest3 =>
            if isCont b3 then
              match rest3 with
              | [] => replacementBytes
              | b4 :: rest4 =>
                if isCont b4 then b :: b2 :: b3 :: b4 :: utf8Lossy rest4
                else replacementBytes ++ utf8Lossy (b4 :: rest4)
            else replacementBytes ++ utf8Lossy (b3 :: rest3)
        else replacementBytes ++ utf8Lossy (b2 :: rest2)
    else replacementBytes ++ utf8Lossy rest
termination_by l => l.length
decreasing_by all_goals (simp only [List.length_cons]; omega)

/-- The `DNSQuestion` struct: each label is a Rust `String`, modelled as its
UTF-8 byte sequence. -/
structure DNSQuestion where
  domain_name : List (List Nat)
  query_type : Nat
  query_class : Nat
  deriving DecidableEq, Repr

/-- `DNSQuestion::to_bytes`.  `label.len() as u8` truncates the length to its
low 8 bits (`% 256`); `label.as_bytes()` is the label's byte sequence. -/
def DNSQuestion.to_bytes (q : DNSQuestion) : List Nat :=
  (q.domain_name.flatMap fun label => label.length % 256 :: label) ++
  [0] ++ be16 q.query_type ++ be16 q.query_class

/-- The label-scanning loop of `DNSQuestion::from_bytes`, recast on the
suffix of the buffer that starts at the loop index `i`: reading `bytes[i]`
panics when the suffix is empty, and the slice `bytes[i+1 .. i+1+len]`
panics when fewer than `len` bytes follow the length byte.  Returns the
decoded labels and the suffix that starts right after the terminating zero
byte. -/
def parseName : List Nat → DecodeResult (List (List Nat) × List Nat)
  | [] => .panicked
  | b :: rest =>
    if b = 0 then .ok ([], rest)
    else if rest.length < b then .panicked
    else
      match parseName (rest.drop b) with
      | .ok (labels, rem) => .ok (utf8Lossy (rest.take b) :: labels, rem)
      | .formatError => .formatError
      | .panicked => .panicked
termination_by bytes => bytes.length
decreasing_by simp [List.length_drop]; omega

/-- `DNSQuestion::from_bytes`.  After the loop stops at the zero byte
(index `i`), the Rust code reads `bytes[i+1] ..= bytes[i+4]` for the type and
class fields, panicking when fewer than four bytes remain. -/
def DNSQuestion.from_bytes (bytes : List Nat) : DecodeResult DNSQuestion :=
  match parseName bytes with
  | .ok (labels, rem) =>
    match rem with
    | t1 :: t2 :: c1 :: c2 :: _ =>
      .ok { domain_name := labels, query_type := fromBe16 t1 t2,
            query_class := fromBe16 c1 c2 }
    | _ => .panicked
  | .formatError => .formatError
  | .panicked => .panicked

/-- `std::net::Ipv4Addr`, as its four octets. -/
structure Ipv4Addr where
  a : Nat
  b : Nat
  c : Nat
  d : Nat
  deriving DecidableEq, Repr

/-- `Ipv4Addr::octets`. -/
def Ipv4Addr.octets (ip : Ipv4Addr) : List Nat := [ip.a, ip.b, ip.c, ip.d]

/-- The `DNSAnswer` struct. -/
structure DNSAnswer where
  domain_name : List (List Nat)
  query_type : Nat
  query_class : Nat
  ttl : Nat
  rdlength : Nat
  rdata : Ipv4Addr
  deriving DecidableEq, Repr

/-- `DNSAnswer::to_bytes`: name, type, class, TTL, then the *stored*
`rdlength` field, then the four address octets. -/
def DNSAnswer.to_bytes (ans : DNSAnswer) : List Nat :=
  (ans.domain_name.flatMap fun label => label.length % 256 :: label) ++
  [0] ++ be16 ans.query_type ++ be16 ans.query_class ++
  be32 ans.ttl ++ be16 ans.rdlength ++ ans.rdata.octets

/-- The wire bytes of an answer up to (not including) the rdlength field;
used only to state where the rdlength bytes sit inside
`DNSAnswer::to_bytes`. -/
def DNSAnswer.wireFront (ans : DNSAnswer) : List Nat :=
  (ans.domain_name.flatMap fun label => label.length % 256 :: label) ++
  [0] ++ be16 ans.query_type ++ be16 ans.query_class ++ be32 ans.ttl

/-- The `DNSQuery` struct. -/
structure DNSQuery where
  header : DNSHeader
  question_section : DNSQuestion
  deriving DecidableEq, Repr

/-- `DNSQuery::new(id, question)`: builds a *fresh* non-response header from
the id alone. -/
def DNSQuery.new (id : Nat) (question : DNSQuestion) : DNSQuery :=
  { header := DNSHeader.new id false, question_section := question }

/-- `DNSQuery::from_bytes`: decodes the header (propagating its error),
decodes the question from byte offset 12, and rebuilds the query from the
header's id alone via `DNSQuery::new`. -/
def DNSQuery.from_bytes (bytes : List Nat) : DecodeResult DNSQuery :=
  match DNSHeader.from_bytes bytes with
  | .ok header =>
    match DNSQuestion.from_bytes (bytes.drop 12) with
    | .ok qs => .ok (DNSQuery.new header.id qs)
    | .formatError => .formatError
    | .panicked => .panicked
  | .formatError => .formatError
  | .panicked => .panicked

/-- The `DNSResponse` struct. -/
structure DNSResponse where
  header : DNSHeader
  question_section : DNSQuestion
  answer_section : DNSAnswer
  deriving DecidableEq, Repr

/-- `DNSResponse::for_request`. -/
def DNSResponse.for_request (query : DNSQuery) : DNSResponse :=
  let header0 := DNSHeader.new query.header.id true
  let header1 := { header0 with qdcount := 1 }
  let answer : DNSAnswer :=
    { domain_name := query.question_section.domain_name,
      query_type := query.question_section.query_type,
      query_class := query.question_section.query_class,
      ttl := 60, rdlength := 4, rdata := ⟨8, 8, 8, 8⟩ }
  let header2 := { header1 with ancount := 1 }
  { header := header2, question_section := query.question_section,
    answer_section := answer }

/-- `DNSResponse::to_bytes`. -/
def DNSResponse.to_bytes (r : DNSResponse) : List Nat :=
  r.header.to_bytes ++ r.question_section.to_bytes ++ r.answer_section.to_bytes

/-! ### Helper lemmas -/

theorem and15_eq_mod (x : Nat) : x &&& 15 = x % 16 := by
  simpa using Nat.and_pow_two_sub_one_eq_mod x 4

theorem and7_eq_mod (x : Nat) : x &&& 7 = x % 8 := by
  simpa using Nat.and_pow_two_sub_one_eq_mod x 3

/-- With every bit-field in range, the `or` of the shifted header flag fields
in byte 2 coincides with their sum. -/
theorem byte2_decomp : ∀ qr < 2, ∀ op < 16, ∀ aa < 2, ∀ tc < 2, ∀ rd < 2,
    Nat.lor ((qr <<< 7) % 256) (Nat.lor ((op <<< 3) % 256) (Nat.lor ((aa <<< 2) % 256)
      (Nat.lor ((tc <<< 1) % 256) rd))) = qr * 128 + op * 8 + aa * 4 + tc * 2 + rd := by
  decide

/-- With every bit-field in range, the `or` of the shifted header flag fields
in byte 3 coincides with their sum. -/
theorem byte3_decomp : ∀ ra < 2, ∀ z < 8, ∀ rc < 16,
    Nat.lor ((ra <<< 7) % 256) (Nat.lor ((z <<< 4) % 256) rc) = ra * 128 + z * 16 + rc := by
  decide

/-- `DNSHeader::from_bytes` fails exactly on buffers shorter than 12 bytes. -/
theorem header_formatError_iff (bytes : List Nat) :
    DNSHeader.from_bytes bytes = .formatError ↔ bytes.length < 12 := by
  rcases bytes with _ | ⟨b0, _ | ⟨b1, _ | ⟨b2, _ | ⟨b3, _ | ⟨b4, _ | ⟨b5, _ | ⟨b6, _ | ⟨b7,
    _ | ⟨b8, _ | ⟨b9, _ | ⟨b10, _ | ⟨b11, rest⟩⟩⟩⟩⟩⟩⟩⟩⟩⟩⟩⟩ <;>
    simp [DNSHeader.from_bytes]

/-- `DNSHeader::from_bytes` performs only the guarded 12-byte reads: it can
never panic. -/
theorem header_ne_panicked (bytes : List Nat) :
    DNSHeader.from_bytes bytes ≠ .panicked := by
  rcases bytes with _ | ⟨b0, _ | ⟨b1, _ | ⟨b2, _ | ⟨b3, _ | ⟨b4, _ | ⟨b5, _ | ⟨b6, _ | ⟨b7,
    _ | ⟨b8, _ | ⟨b9, _ | ⟨b10, _ | ⟨b11, rest⟩⟩⟩⟩⟩⟩⟩⟩⟩⟩⟩⟩ <;>
    simp [DNSHeader.from_bytes]

/-- The label loop has no error path of its own: it either finishes or
panics, so it can never yield `formatError`. -/
theorem parseName_ne_formatError (bytes : List Nat) : parseName bytes ≠ .formatError := by
  induction bytes using parseName.induct with
  | case1 => simp [parseName]
  | case2 rest => simp [parseName]
  | case3 b rest h1 h2 => simp [parseName, h1, h2]
  | case4 b rest h1 h2 labels rem heq ih => simp [parseName, h1, h2, heq]
  | case5 b rest h1 h2 heq ih => exact absurd heq ih
  | case6 b rest h1 h2 heq ih => simp [parseName, h1, h2, heq]

/-- `DNSQuestion::from_bytes` never yields `formatError`: the Rust function
does not even have an error return type. -/
theorem question_ne_formatError (bytes : List Nat) :
    DNSQuestion.from_bytes bytes ≠ .formatError := by
  unfold DNSQuestion.from_bytes
  rcases hp : parseName bytes with ⟨labels, rem⟩ | _ | _
  · rcases rem with _ | ⟨t1, _ | ⟨t2, _ | ⟨c1, _ | ⟨c2, rem2⟩⟩⟩⟩ <;> simp
  · exact absurd hp (parseName_ne_formatError bytes)
  · simp

/-- `utf8Lossy` is the identity on ASCII byte sequences. -/
theorem utf8Lossy_ascii (l : List Nat) (h : ∀ b ∈ l, b ≤ 127) : utf8Lossy l = l := by
  induction l with
  | nil => simp [utf8Lossy]
  | cons b rest ih =>
    rw [utf8Lossy.eq_def]
    simp only []
    rw [if_pos (h b (List.mem_cons_self b rest))]
    rw [ih fun x hx => h x (List.mem_cons_of_mem b hx)]

/-- Scanning the encoding of a label sequence (each label non-empty, at most
255 bytes, and valid UTF-8) followed by the zero terminator and a suffix
recovers exactly those labels and that suffix. -/
theorem parseName_encode (labels : List (List Nat)) (suffix : List Nat)
    (h : ∀ l ∈ labels, l ≠ [] ∧ l.length ≤ 255 ∧ utf8Lossy l = l) :
    parseName ((labels.flatMap fun label => label.length % 256 :: label) ++ 0 :: suffix)
      = .ok (labels, suffix) := by
  induction labels with
  | nil => simp [parseName]
  | cons l tl ih =>
    obtain ⟨hne, hlen, hval⟩ := h l (List.mem_cons_self l tl)
    have hlpos : 0 < l.length := List.length_pos.mpr hne
    have hmod : l.length % 256 = l.length := Nat.mod_eq_of_lt (by omega)
    rw [List.flatMap_cons]
    simp only [List.cons_append, List.append_assoc, hmod]
    rw [parseName]
    rw [if_neg (by omega)]
    rw [if_neg (by simp [List.length_append])]
    rw [List.drop_left, List.take_left]
    rw [ih fun x hx => h x (List.mem_cons_of_mem l hx)]
    rw [hval]

/-! ### Claim theorems -/

/-- C4: for every Header value whose fields fit their declared bit widths,
decoding the 12 bytes produced by `DNSHeader::to_bytes` yields a header
equal to the original: `from_bytes (to_bytes h) = Ok h`. -/
theorem header_roundtrip (h : DNSHeader)
    (hv : h.id < 65536 ∧ h.qr ≤ 1 ∧ h.opcode ≤ 15 ∧ h.aa ≤ 1 ∧ h.tc ≤ 1 ∧ h.rd ≤ 1 ∧
      h.ra ≤ 1 ∧ h.z ≤ 7 ∧ h.rcode ≤ 15 ∧ h.qdcount < 65536 ∧ h.ancount < 65536 ∧
      h.nscount < 65536 ∧ h.arcount < 65536) :
    DNSHeader.from_bytes h.to_bytes = .ok h := by
  obtain ⟨hid, hqr, hop, haa, htc, hrd, hra, hz, hrc, hqd, han, hns, har⟩ := hv
  obtain ⟨id, qr, op, aa, tc, rd, ra, z, rc, qd, an, ns, ar⟩ := h
  simp only [DNSHeader.to_bytes, be16, List.cons_append, List.nil_append,
    List.append_assoc] at *
  rw [byte2_decomp qr (by omega) op (by omega) aa (by omega) tc (by omega) rd (by omega),
      byte3_decomp ra (by omega) z (by omega) rc (by omega)]
  simp only [DNSHeader.from_bytes, fromBe16, DecodeResult.ok.injEq, DNSHeader.mk.injEq]
  omega

/-- Witness for C4 at a concrete in-range header. -/
theorem header_roundtrip_witness :
    ((4660 : Nat) < 65536 ∧ (1 : Nat) ≤ 1 ∧ (0 : Nat) ≤ 15 ∧ (1 : Nat) ≤ 1 ∧ (0 : Nat) ≤ 1 ∧
      (1 : Nat) ≤ 1 ∧ (1 : Nat) ≤ 1 ∧ (1 : Nat) ≤ 7 ∧ (7 : Nat) ≤ 15 ∧ (1 : Nat) < 65536 ∧
      (2 : Nat) < 65536 ∧ (3 : Nat) < 65536 ∧ (4 : Nat) < 65536) ∧
    DNSHeader.from_bytes (DNSHeader.to_bytes ⟨4660, 1, 0, 1, 0, 1, 1, 1, 7, 1, 2, 3, 4⟩)
      = .ok ⟨4660, 1, 0, 1, 0, 1, 1, 1, 7, 1, 2, 3, 4⟩ :=
  ⟨by decide, header_roundtrip ⟨4660, 1, 0, 1, 0, 1, 1, 1, 7, 1, 2, 3, 4⟩ (by decide)⟩

/-- C8: `DNSHeader::from_bytes` returns `FormatError` on every buffer
shorter than 12 bytes (without any out-of-bounds read, all its reads being
behind the length guard), and on every longer buffer extracts each field
from the documented bit position: id from bytes 0-1, `qr`/`opcode`/`aa`/
`tc`/`rd` from byte 2, `ra`/`z`/`rcode` from byte 3, and the four counts
big-endian from bytes 4-11. -/
theorem header_from_bytes_layout (bytes : List Nat) :
    (bytes.length < 12 → DNSHeader.from_bytes bytes = .formatError) ∧
    (12 ≤ bytes.length →
      DNSHeader.from_bytes bytes = .ok
        { id := 256 * bytes.getD 0 0 + bytes.getD 1 0,
          qr := bytes.getD 2 0 >>> 7,
          opcode := (bytes.getD 2 0 >>> 3) &&& 15,
          aa := (bytes.getD 2 0 >>> 2) &&& 1,
          tc := (bytes.getD 2 0 >>> 1) &&& 1,
          rd := bytes.getD 2 0 &&& 1,
          ra := bytes.getD 3 0 >>> 7,
          z := (bytes.getD 3 0 >>> 4) &&& 7,
          rcode := bytes.getD 3 0 &&& 15,
          qdcount := 256 * bytes.getD 4 0 + bytes.getD 5 0,
          ancount := 256 * bytes.getD 6 0 + bytes.getD 7 0,
          nscount := 256 * bytes.getD 8 0 + bytes.getD 9 0,
          arcount := 256 * bytes.getD 10 0 + bytes.getD 11 0 }) := by
  refine ⟨fun hlt => (header_formatError_iff bytes).mpr hlt, fun hge => ?_⟩
  rcases bytes with _ | ⟨b0, _ | ⟨b1, _ | ⟨b2, _ | ⟨b3, _ | ⟨b4, _ | ⟨b5, _ | ⟨b6, _ | ⟨b7,
    _ | ⟨b8, _ | ⟨b9, _ | ⟨b10, _ | ⟨b11, rest⟩⟩⟩⟩⟩⟩⟩⟩⟩⟩⟩⟩ <;>
    simp only [List.length_cons, List.length_nil] at hge <;> try omega
  simp only [DNSHeader.from_bytes, fromBe16, List.getD_cons_zero, List.getD_cons_succ,
    Nat.shiftRight_eq_div_pow, and15_eq_mod, and7_eq_mod, Nat.and_one_is_mod,
    DecodeResult.ok.injEq, DNSHeader.mk.injEq]
  norm_num
  omega

/-- Witness for C8 at a concrete 12-byte buffer. -/
theorem header_from_bytes_layout_witness :
    12 ≤ ([18, 52, 133, 151, 0, 1, 0, 2, 0, 3, 0, 4] : List Nat).length ∧
    DNSHeader.from_bytes [18, 52, 133, 151, 0, 1, 0, 2, 0, 3, 0, 4]
      = .ok ⟨4660, 1, 0, 1, 0, 1, 1, 1, 7, 1, 2, 3, 4⟩ := by
  have h := (header_from_bytes_layout [18, 52, 133, 151, 0, 1, 0, 2, 0, 3, 0, 4]).2
    (by decide)
  exact ⟨by decide, h.trans (by decide)⟩

/-- C5: for every Question whose labels are non-empty, at most 255 bytes
long, and (being Rust `String`s) valid UTF-8, decoding the bytes produced by
`DNSQuestion::to_bytes` yields the same Question; the trailing `extra` bytes
show that decoding consumes exactly the encoding and ignores what follows
(the Rust function returns only the Question, with no consumed-byte count).
A byte sequence is valid UTF-8 exactly when `utf8Lossy` fixes it, which is
how `String::from_utf8_lossy` behaves on `String::as_bytes` output. -/
theorem question_roundtrip (q : DNSQuestion) (extra : List Nat)
    (h : ∀ l ∈ q.domain_name, l ≠ [] ∧ l.length ≤ 255 ∧ utf8Lossy l = l)
    (ht : q.query_type < 65536) (hc : q.query_class < 65536) :
    DNSQuestion.from_bytes (q.to_bytes ++ extra) = .ok q := by
  obtain ⟨name, t, c⟩ := q
  unfold DNSQuestion.to_bytes DNSQuestion.from_bytes
  simp only [be16, List.append_assoc, List.cons_append, List.nil_append]
  rw [parseName_encode name _ h]
  simp only [fromBe16, DecodeResult.ok.injEq, DNSQuestion.mk.injEq]
  have ht2 : t < 65536 := ht
  have hc2 : c < 65536 := hc
  exact ⟨trivial, by omega, by omega⟩

/-- Witness for C5 at the question "example.com", type 1, class 1, with
trailing junk bytes. -/
theorem question_roundtrip_witness :
    (∀ l ∈ ([[101, 120, 97, 109, 112, 108, 101], [99, 111, 109]] : List (List Nat)),
        l ≠ [] ∧ l.length ≤ 255 ∧ utf8Lossy l = l) ∧
    DNSQuestion.from_bytes
        (DNSQuestion.to_bytes ⟨[[101, 120, 97, 109, 112, 108, 101], [99, 111, 109]], 1, 1⟩
          ++ [9, 9])
      = .ok ⟨[[101, 120, 97, 109, 112, 108, 101], [99, 111, 109]], 1, 1⟩ := by
  have hl : ∀ l ∈ ([[101, 120, 97, 109, 112, 108, 101], [99, 111, 109]] : List (List Nat)),
      l ≠ [] ∧ l.length ≤ 255 ∧ utf8Lossy l = l := by
    intro l hl
    rcases List.mem_cons.mp hl with rfl | hl2
    · exact ⟨by decide, by decide, utf8Lossy_ascii _ (by decide)⟩
    · rcases List.mem_cons.mp hl2 with rfl | hl3
      · exact ⟨by decide, by decide, utf8Lossy_ascii _ (by decide)⟩
      · exact absurd hl3 (List.not_mem_nil l)
  exact ⟨hl, question_roundtrip _ [9, 9] hl (by decide) (by decide)⟩

/-- C6: `DNSResponse::for_request` is total and returns a response whose
header carries the query's id, `qr = 1`, `qdcount = 1`, `ancount = 1` and
zeros elsewhere; whose question is the query's question; and whose single
answer mirrors the question's name, type and class with TTL 60, rdlength 4
and data 8.8.8.8. -/
theorem for_request_spec (q : DNSQuery) :
    (DNSResponse.for_request q).header
        = ⟨q.header.id, 1, 0, 0, 0, 0, 0, 0, 0, 1, 1, 0, 0⟩ ∧
    (DNSResponse.for_request q).question_section = q.question_section ∧
    (DNSResponse.for_request q).answer_section
        = ⟨q.question_section.domain_name, q.question_section.query_type,
           q.question_section.query_class, 60, 4, ⟨8, 8, 8, 8⟩⟩ :=
  ⟨rfl, rfl, rfl⟩

/-- C1 (counterexample): an Answer constructed with `rdlength = 7` is
encoded with rdlength bytes `[0, 7]`, while the data actually written after
them is the 4-byte address — the emitted length field does not equal the
data's byte length, because `DNSAnswer::to_bytes` emits the stored field
verbatim. -/
theorem rdlength_not_recomputed :
    DNSAnswer.to_bytes ⟨[], 0, 0, 0, 7, ⟨8, 8, 8, 8⟩⟩
      = [0, 0, 0, 0, 0, 0, 0, 0, 0, 0, 7, 8, 8, 8, 8] ∧
    [(0 : Nat), 7] ≠ be16 (Ipv4Addr.octets ⟨8, 8, 8, 8⟩).length := by
  constructor <;> decide

/-- C1 (amended): `DNSAnswer::to_bytes` writes the stored `rdlength` field
(not a recomputed length) between the TTL and the data; the data written
after it is always exactly 4 bytes; and `DNSResponse::for_request` always
stores 4, so responses built by this program are consistent. -/
theorem answer_emits_stored_rdlength (a : DNSAnswer) (q : DNSQuery) :
    a.to_bytes = a.wireFront ++ be16 a.rdlength ++ a.rdata.octets ∧
    a.rdata.octets.length = 4 ∧
    (DNSResponse.for_request q).answer_section.rdlength = 4 := by
  refine ⟨?_, rfl, rfl⟩
  simp [DNSAnswer.to_bytes, DNSAnswer.wireFront, List.append_assoc]

/-- C2 (counterexample): `DNSQuestion::from_bytes` on the empty buffer
panics (out-of-bounds read of `bytes[0]`) — it neither returns a value nor a
FormatError. -/
theorem question_from_bytes_empty_panics :
    DNSQuestion.from_bytes [] = .panicked ∧
    (DecodeResult.panicked : DecodeResult DNSQuestion) ≠ .formatError := by
  constructor
  · simp [DNSQuestion.from_bytes, parseName]
  · simp

/-- C2 (amended): `DNSHeader::from_bytes` is fully bounds-checked and never
panics, but `DNSQuestion::from_bytes` does unchecked indexing: its only
failure mode is a panic, never FormatError; consequently
`DNSQuery::from_bytes` returns FormatError exactly when the buffer is
shorter than 12 bytes (the header guard) and panics on question-section
malformations. -/
theorem decode_error_channels (bytes : List Nat) :
    DNSHeader.from_bytes bytes ≠ .panicked ∧
    DNSQuestion.from_bytes bytes ≠ .formatError ∧
    (DNSQuery.from_bytes bytes = .formatError ↔ bytes.length < 12) := by
  refine ⟨header_ne_panicked bytes, question_ne_formatError bytes, ?_⟩
  unfold DNSQuery.from_bytes
  rcases hh : DNSHeader.from_bytes bytes with hd | _ | _
  · have hlen : ¬ bytes.length < 12 := fun hlt => by
      have h2 := (header_formatError_iff bytes).mpr hlt
      rw [hh] at h2
      cases h2
    rcases hq : DNSQuestion.from_bytes (bytes.drop 12) with qs | _ | _
    · simp [hlen]
    · exact absurd hq (question_ne_formatError _)
    · simp [hlen]
  · simp [(header_formatError_iff bytes).mp hh]
  · exact absurd hh (header_ne_panicked bytes)

/-- C3 (counterexample): a question whose label length byte declares 3 bytes
while only 2 remain makes `DNSQuestion::from_bytes` panic (out-of-bounds
slice), not return FormatError. -/
theorem overrunning_label_panics :
    DNSQuestion.from_bytes [3, 97, 98] = .panicked ∧
    (DecodeResult.panicked : DecodeResult DNSQuestion) ≠ .formatError := by
  constructor
  · simp [DNSQuestion.from_bytes, parseName]
  · simp

/-- C3 (amended): on each malformed-question class the decoder panics
instead of returning FormatError — an overrunning label (`[2,97,98]`:
terminator never found, the scan runs off the end), fewer than 4 bytes after
the terminator (`[0,0,1]`), a pointer-like length byte with too little data
(`[192,0]`) — and a pointer-like length byte `0xC0` with enough data is
silently misparsed as a 192-byte literal label; `DNSQuestion::from_bytes`
never returns FormatError on any input. -/
theorem malformed_question_behavior :
    DNSQuestion.from_bytes [2, 97, 98] = .panicked ∧
    DNSQuestion.from_bytes [0, 0, 1] = .panicked ∧
    DNSQuestion.from_bytes [192, 0] = .panicked ∧
    DNSQuestion.from_bytes (192 :: (List.replicate 192 97 ++ [0, 0, 1, 0, 1]))
      = .ok ⟨[List.replicate 192 97], 1, 1⟩ ∧
    ∀ bs : List Nat, DNSQuestion.from_bytes bs ≠ .formatError := by
  refine ⟨?_, ?_, ?_, ?_, question_ne_formatError⟩
  · simp [DNSQuestion.from_bytes, parseName]
  · simp [DNSQuestion.from_bytes, parseName]
  · simp [DNSQuestion.from_bytes, parseName]
  · have hval : utf8Lossy (List.replicate 192 (97 : Nat)) = List.replicate 192 97 :=
      utf8Lossy_ascii _ fun b hb => by rw [List.eq_of_mem_replicate hb]; decide
    obtain ⟨L, hL⟩ : ∃ L, List.replicate 192 (97 : Nat) = L := ⟨_, rfl⟩
    rw [hL] at hval ⊢
    have hLen : L.length = 192 := by rw [← hL, List.length_replicate]
    have hdrop : (L ++ [0, 0, 1, 0, 1]).drop 192 = [0, 0, 1, 0, 1] := List.drop_left' hLen
    have htake : (L ++ [0, 0, 1, 0, 1]).take 192 = L := List.take_left' hLen
    simp [DNSQuestion.from_bytes, parseName, hLen, List.length_append, hdrop, htake, hval,
      fromBe16]

/-- C7 (counterexample): on a buffer whose header byte 2 is `0x80`
(`qr = 1`), `DNSHeader::from_bytes` decodes `qr = 1`, yet
`DNSQuery::from_bytes` on the same buffer returns a query whose header has
`qr = 0`: every decoded header field except the id is discarded. -/
theorem query_drops_header_fields :
    DNSHeader.from_bytes [0, 1, 128, 0, 0, 0, 0, 0, 0, 0, 0, 0, 0, 0, 1, 0, 1]
      = .ok ⟨1, 1, 0, 0, 0, 0, 0, 0, 0, 0, 0, 0, 0⟩ ∧
    DNSQuery.from_bytes [0, 1, 128, 0, 0, 0, 0, 0, 0, 0, 0, 0, 0, 0, 1, 0, 1]
      = .ok ⟨⟨1, 0, 0, 0, 0, 0, 0, 0, 0, 0, 0, 0, 0⟩, ⟨[], 1, 1⟩⟩ ∧
    (1 : Nat) ≠ 0 := by
  refine ⟨by decide, ?_, by decide⟩
  unfold DNSQuery.from_bytes
  rw [show DNSHeader.from_bytes [0, 1, 128, 0, 0, 0, 0, 0, 0, 0, 0, 0, 0, 0, 1, 0, 1]
      = .ok ⟨1, 1, 0, 0, 0, 0, 0, 0, 0, 0, 0, 0, 0⟩ from by decide]
  rw [show ([0, 1, 128, 0, 0, 0, 0, 0, 0, 0, 0, 0, 0, 0, 1, 0, 1] : List Nat).drop 12
      = [0, 0, 1, 0, 1] from rfl]
  rw [show DNSQuestion.from_bytes [0, 0, 1, 0, 1] = .ok ⟨[], 1, 1⟩ from by
    simp [DNSQuestion.from_bytes, parseName, fromBe16]]
  rfl

/-- C7 (amended): whenever both decodes succeed, the query's header is
`DNSHeader::new(id, false)` — only the id of the decoded header survives;
qr, opcode, the flags and all four counts are reset to the defaults — and
the question section is the one decoded from byte offset 12. -/
theorem query_keeps_only_id (bytes : List Nat) (hd : DNSHeader) (q : DNSQuery)
    (hh : DNSHeader.from_bytes bytes = .ok hd)
    (hq : DNSQuery.from_bytes bytes = .ok q) :
    q.header = DNSHeader.new hd.id false ∧
    DNSQuestion.from_bytes (bytes.drop 12) = .ok q.question_section := by
  unfold DNSQuery.from_bytes at hq
  rw [hh] at hq
  rcases hqq : DNSQuestion.from_bytes (bytes.drop 12) with qs | _ | _ <;> rw [hqq] at hq
  · cases hq
    exact ⟨rfl, rfl⟩
  · cases hq
  · cases hq

/-- Witness for C7's amended theorem at a concrete buffer. -/
theorem query_keeps_only_id_witness :
    (DNSHeader.from_bytes [0, 1, 128, 0, 0, 0, 0, 0, 0, 0, 0, 0, 0, 0, 1, 0, 1]
        = .ok ⟨1, 1, 0, 0, 0, 0, 0, 0, 0, 0, 0, 0, 0⟩ ∧
      DNSQuery.from_bytes [0, 1, 128, 0, 0, 0, 0, 0, 0, 0, 0, 0, 0, 0, 1, 0, 1]
        = .ok ⟨⟨1, 0, 0, 0, 0, 0, 0, 0, 0, 0, 0, 0, 0⟩, ⟨[], 1, 1⟩⟩) ∧
    ((⟨⟨1, 0, 0, 0, 0, 0, 0, 0, 0, 0, 0, 0, 0⟩, ⟨[], 1, 1⟩⟩ : DNSQuery).header
        = DNSHeader.new (⟨1, 1, 0, 0, 0, 0, 0, 0, 0, 0, 0, 0, 0⟩ : DNSHeader).id false ∧
      DNSQuestion.from_bytes
          (([0, 1, 128, 0, 0, 0, 0, 0, 0, 0, 0, 0, 0, 0, 1, 0, 1] : List Nat).drop 12)
        = .ok (⟨⟨1, 0, 0, 0, 0, 0, 0, 0, 0, 0, 0, 0, 0⟩, ⟨[], 1, 1⟩⟩ : DNSQuery).question_section) := by
  have hh : DNSHeader.from_bytes [0, 1, 128, 0, 0, 0, 0, 0, 0, 0, 0, 0, 0, 0, 1, 0, 1]
      = .ok ⟨1, 1, 0, 0, 0, 0, 0, 0, 0, 0, 0, 0, 0⟩ := by decide
  have hq : DNSQuery.from_bytes [0, 1, 128, 0, 0, 0, 0, 0, 0, 0, 0, 0, 0, 0, 1, 0, 1]
      = .ok ⟨⟨1, 0, 0, 0, 0, 0, 0, 0, 0, 0, 0, 0, 0⟩, ⟨[], 1, 1⟩⟩ := by
    unfold DNSQuery.from_bytes
    rw [hh]
    rw [show ([0, 1, 128, 0, 0, 0, 0, 0, 0, 0, 0, 0, 0, 0, 1, 0, 1] : List Nat).drop 12
        = [0, 0, 1, 0, 1] from rfl]
    rw [show DNSQuestion.from_bytes [0, 0, 1, 0, 1] = .ok ⟨[], 1, 1⟩ from by
      simp [DNSQuestion.from_bytes, parseName, fromBe16]]
    rfl
  exact ⟨⟨hh, hq⟩, query_keeps_only_id _ _ _ hh hq⟩

/-- C9 (counterexample): `DNSQuestion::to_bytes` does not fail on a 256-byte
label: it emits output whose leading length byte is `256 % 256 = 0`,
inconsistent with the 256 label bytes that follow. -/
theorem oversized_label_not_rejected :
    (DNSQuestion.to_bytes ⟨[List.replicate 256 97], 1, 1⟩).headI = 0 ∧
    (List.replicate 256 (97 : Nat)).length = 256 := by
  obtain ⟨L, hL⟩ : ∃ L, List.replicate 256 (97 : Nat) = L := ⟨_, rfl⟩
  rw [hL]
  have hLen : L.length = 256 := by rw [← hL, List.length_replicate]
  constructor
  · simp [DNSQuestion.to_bytes, hLen]
  · exact hLen

/-- C9 (amended): encoding never fails; a label longer than 255 bytes is not
rejected — its length byte is emitted as `length % 256`, which is strictly
smaller than the number of label bytes that follow it. -/
theorem to_bytes_truncates_label_length (l : List Nat) (tl : List (List Nat)) (t c : Nat)
    (h : 255 < l.length) :
    DNSQuestion.to_bytes ⟨l :: tl, t, c⟩
      = l.length % 256 :: (l ++ ((tl.flatMap fun label => label.length % 256 :: label) ++
          0 :: (be16 t ++ be16 c))) ∧
    l.length % 256 < l.length := by
  constructor
  · simp [DNSQuestion.to_bytes, List.append_assoc]
  · have hm : l.length % 256 < 256 := Nat.mod_lt _ (by norm_num)
    omega

/-- Witness for C9's amended theorem at a 256-byte label. -/
theorem to_bytes_truncates_label_length_witness :
    255 < (List.replicate 256 (97 : Nat)).length ∧
    (DNSQuestion.to_bytes ⟨[List.replicate 256 97], 1, 1⟩
        = (List.replicate 256 (97 : Nat)).length % 256 ::
            (List.replicate 256 (97 : Nat) ++
              ((([] : List (List Nat)).flatMap fun label => label.length % 256 :: label) ++
                0 :: (be16 1 ++ be16 1))) ∧
      (List.replicate 256 (97 : Nat)).length % 256 < (List.replicate 256 (97 : Nat)).length) :=
  ⟨by rw [List.length_replicate]; omega,
    to_bytes_truncates_label_length (List.replicate 256 97) [] 1 1
      (by rw [List.length_replicate]; omega)⟩

/-- C10: `DNSQuery::from_bytes` parses exactly one question starting at byte
offset 12, whatever the count fields (bytes 4-11) say: replacing them with
any other eight bytes leaves the result unchanged, and a successful parse
yields the single question decoded from the bytes after offset 12. -/
theorem decode_query_ignores_counts (p0 p1 p2 p3 : Nat) (counts counts2 rest : List Nat)
    (h2 : counts.length = 8) (h3 : counts2.length = 8) :
    DNSQuery.from_bytes (p0 :: p1 :: p2 :: p3 :: (counts ++ rest))
      = DNSQuery.from_bytes (p0 :: p1 :: p2 :: p3 :: (counts2 ++ rest)) ∧
    (p0 :: p1 :: p2 :: p3 :: (counts ++ rest)).drop 12 = rest ∧
    ∀ qs, DNSQuestion.from_bytes rest = .ok qs →
      DNSQuery.from_bytes (p0 :: p1 :: p2 :: p3 :: (counts ++ rest))
        = .ok (DNSQuery.new (fromBe16 p0 p1) qs) := by
  rcases counts with _ | ⟨c0, _ | ⟨c1, _ | ⟨c2, _ | ⟨c3, _ | ⟨c4, _ | ⟨c5, _ | ⟨c6,
    _ | ⟨c7, _ | ⟨x, xs⟩⟩⟩⟩⟩⟩⟩⟩⟩ <;> simp only [List.length_cons, List.length_nil] at h2 <;>
    try omega
  rcases counts2 with _ | ⟨d0, _ | ⟨d1, _ | ⟨d2, _ | ⟨d3, _ | ⟨d4, _ | ⟨d5, _ | ⟨d6,
    _ | ⟨d7, _ | ⟨y, ys⟩⟩⟩⟩⟩⟩⟩⟩⟩ <;> simp only [List.length_cons, List.length_nil] at h3 <;>
    try omega
  refine ⟨rfl, rfl, ?_⟩
  intro qs hqs
  unfold DNSQuery.from_bytes
  simp only [List.cons_append, List.nil_append]
  rw [show (p0 :: p1 :: p2 :: p3 :: c0 :: c1 :: c2 :: c3 :: c4 :: c5 :: c6 :: c7 :: rest).drop 12
      = rest from rfl, hqs]
  simp [DNSHeader.from_bytes]

/-- Witness for C10 with `qdcount = 5` against `qdcount = 0`. -/
theorem decode_query_ignores_counts_witness :
    (([0, 5, 0, 0, 0, 0, 0, 0] : List Nat).length = 8 ∧
      ([0, 0, 0, 0, 0, 0, 0, 0] : List Nat).length = 8) ∧
    DNSQuery.from_bytes [0, 1, 128, 0, 0, 5, 0, 0, 0, 0, 0, 0, 0, 0, 1, 0, 1]
      = DNSQuery.from_bytes [0, 1, 128, 0, 0, 0, 0, 0, 0, 0, 0, 0, 0, 0, 1, 0, 1] :=
  ⟨by decide,
    (decode_query_ignores_counts 0 1 128 0 [0, 5, 0, 0, 0, 0, 0, 0] [0, 0, 0, 0, 0, 0, 0, 0]
      [0, 0, 1, 0, 1] (by decide) (by decide)).1⟩
